import Mathlib

/-!
Verification of the GoFast delivery-route optimization service
(`ml_backend/main.py`) against its natural-language specification.

The service is embedded shallowly: Python floats are modelled as the type
`FVal` (a finite rational, `+inf`, or `NaN` — the only float shapes the
service distinguishes with `== float('inf')`, `math.isnan` and `< 0`);
external collaborators (the Mapbox routing provider, the optional duration
predictor, the OR-Tools solver) are oracle parameters, following the spec's
black-box contracts for them.  All definitions are executable.
-/

set_option autoImplicit false

namespace GoFast

/-- Python float values as the service distinguishes them: a finite value
(modelled exactly as a rational), positive infinity, or NaN.  Negative
infinity is not producible by any collaborator output path the service
reads (`dict.get(_, float('inf'))` defaults, provider payload fields), and
would in any case be caught by the `< 0` branch of the sanitizer. -/
inductive FVal where
  | fin : ℚ → FVal
  | inf : FVal
  | nan : FVal
deriving DecidableEq, Repr, Inhabited

namespace FVal

/-- Python `<` on floats: NaN compares false against everything,
`inf < inf` is false, any finite value is below `inf`. -/
def flt : FVal → FVal → Bool
  | fin p, fin q => decide (p < q)
  | fin _, inf => true
  | _, _ => false

/-- Python `min(a, b)`: returns `b` only when `b < a` (so the first
argument wins ties and NaN-incomparability). -/
def pyMin (a b : FVal) : FVal := if flt b a then b else a

/-- Python `max(a, b)`: returns `b` only when `a < b`. -/
def pyMax (a b : FVal) : FVal := if flt a b then b else a

/-- Python `math.isnan`. -/
def isnan : FVal → Bool
  | nan => true
  | _ => false

/-- Python float addition on the values the service produces
(`-inf` excluded, see `FVal`). -/
def fadd : FVal → FVal → FVal
  | fin p, fin q => fin (p + q)
  | nan, _ => nan
  | _, nan => nan
  | inf, _ => inf
  | _, inf => inf

/-- Python float multiplication on the values the service produces.
`inf * 0 = nan` as in IEEE; `inf` times a negative operand would be `-inf`
in Python but no negative operand reaches a multiplication in the service
(weights and normalized values are nonnegative). -/
def fmul : FVal → FVal → FVal
  | fin p, fin q => fin (p * q)
  | nan, _ => nan
  | _, nan => nan
  | inf, fin q => if q = 0 then nan else inf
  | fin p, inf => if p = 0 then nan else inf
  | inf, inf => inf

/-- Python float division on the values the service produces.  Division by
a finite zero raises `ZeroDivisionError` in Python; the service only ever
divides by normalization maxima floored at `1.0`, so that case is
unreachable (modelled as NaN for totality). -/
def fdiv : FVal → FVal → FVal
  | fin p, fin q => if q = 0 then nan else fin (p / q)
  | nan, _ => nan
  | _, nan => nan
  | inf, fin _ => inf
  | fin _, inf => fin 0
  | inf, inf => nan

end FVal

/-- The fixed large sentinel of `main.py` lines 337 and 339
(`1_000_000_000`). -/
def SENTINEL : ℚ := 1000000000

/-- `main.py` lines 336–339: replace an infinite, NaN, or negative value by
the fixed large sentinel before storing it in the estimate cache. -/
def sanitize (v : FVal) : FVal :=
  if v = FVal.inf ∨ v.isnan = true ∨ FVal.flt v (FVal.fin 0) = true then
    FVal.fin SENTINEL
  else v

/-- The `type` field of a point dict / `RoutePoint`. -/
inductive PKind where
  | current_location
  | order
  | warehouse
deriving DecidableEq, Repr, Inhabited

/-- One entry of `all_points_details` (`main.py` lines 247–254): the point
dicts carry an id, a type, coordinates, and — for order points only — a
weight. -/
structure Point where
  id : Option String
  kind : PKind
  latitude : ℚ
  longitude : ℚ
  weight : Option ℚ
deriving DecidableEq, Repr, Inhabited

/-- `OrderInput` pydantic model. -/
structure OrderInput where
  id : String
  latitude : ℚ
  longitude : ℚ
  weight : ℚ
deriving DecidableEq, Repr

/-- `OptimizeRouteRequest` pydantic model (pydantic field constraints
`0 ≤ weight_time ≤ 1` etc. appear as hypotheses where needed). -/
structure OptimizeRouteRequest where
  orders : List OrderInput
  warehouse_latitude : Option ℚ
  warehouse_longitude : Option ℚ
  current_latitude : ℚ
  current_longitude : ℚ
  weight_time : ℚ
  weight_distance : ℚ
deriving Repr

/-- Process-wide configuration: the default warehouse coordinates
(`WAREHOUSE_COORDS`). -/
structure Config where
  warehouse_latitude : ℚ
  warehouse_longitude : ℚ
deriving Repr

/-- The current-location point dict (`main.py` line 248). -/
def currentPoint (request : OptimizeRouteRequest) : Point :=
  { id := some "current_location_0", kind := PKind.current_location,
    latitude := request.current_latitude, longitude := request.current_longitude,
    weight := none }

/-- The warehouse point dict (`main.py` line 253), with the optional
per-request warehouse override of lines 243–244. -/
def warehousePoint (cfg : Config) (request : OptimizeRouteRequest) : Point :=
  { id := some "warehouse_final", kind := PKind.warehouse,
    latitude := request.warehouse_latitude.getD cfg.warehouse_latitude,
    longitude := request.warehouse_longitude.getD cfg.warehouse_longitude,
    weight := none }

/-- `all_points_details` (`main.py` lines 247–254): current location, then
the orders in input order, then the warehouse. -/
def allPoints (cfg : Config) (request : OptimizeRouteRequest) : List Point :=
  currentPoint request ::
    (request.orders.map (fun o =>
      { id := some o.id, kind := PKind.order, latitude := o.latitude,
        longitude := o.longitude, weight := some o.weight })
     ++ [warehousePoint cfg request])

/-- Coordinates as passed to the provider: `(longitude, latitude)`. -/
abbrev Coord := ℚ × ℚ

/-- Modelled from the spec (§6, routing data provider): the provider is a
black box `estimate(coords) -> {distance, duration, ...}` that may fail.
`none` models any failure (timeout, transport error, no route); a missing
`distance`/`duration` key is modelled by the oracle returning `inf`,
matching the `mapbox_data.get(key, float('inf'))` defaults of
`main.py` lines 306–307. -/
structure MapboxRoute where
  distance : FVal
  duration : FVal
deriving DecidableEq, Repr

/-- The routing-data-provider oracle for a single ordered coordinate pair. -/
abbrev Provider := Coord → Coord → Option MapboxRoute

/-- The feature record handed to the duration predictor
(`main.py` lines 316–323). -/
structure Features where
  senderLat : ℚ
  senderLng : ℚ
  receiverLat : ℚ
  receiverLng : ℚ
  weight : ℚ
  order_hour : ℕ
  order_day : ℕ
  shippingDistance : FVal

/-- Modelled from the spec (§6, duration predictor): a black box
`predict(features) -> duration` that may raise (the `Except.error` case);
it may be entirely absent (the endpoint takes an `Option Model`). -/
abbrev Model := Features → Except Unit FVal

/-- One cached pairwise estimate (`all_segments_data_cache` values; the raw
`_mapbox_raw_` payload is never read back and is omitted). -/
structure PairEstimate where
  distance : FVal
  duration : FVal
deriving DecidableEq, Repr

/-- The feature record built for a pair (`main.py` lines 312–323): the
destination's order weight (or `0` for non-order destinations), the wall
clock features, and the provider-reported distance. -/
def pairFeatures (hour day : ℕ) (src dst : Point) (shippingDistance : FVal) :
    Features :=
  { senderLat := src.latitude, senderLng := src.longitude,
    receiverLat := dst.latitude, receiverLng := dst.longitude,
    weight := if dst.kind = PKind.order then dst.weight.getD 0 else 0,
    order_hour := hour, order_day := day, shippingDistance := shippingDistance }

/-- The estimate-collection body for one ordered pair
(`main.py` lines 304–339): provider call, optional prediction resolved as
`max(0.0, min(prediction, provider_duration))`, fallback to the provider
duration on prediction error, then sanitization of both values. -/
def collectPair (model : Option Model) (provider : Provider) (hour day : ℕ)
    (src dst : Point) : PairEstimate :=
  let mapbox_data := provider (src.longitude, src.latitude) (dst.longitude, dst.latitude)
  let shipping_distance := match mapbox_data with
    | some r => r.distance
    | none => FVal.inf
  let mapbox_duration := match mapbox_data with
    | some r => r.duration
    | none => FVal.inf
  let predicted_duration := match model with
    | none => mapbox_duration
    | some m =>
        match m (pairFeatures hour day src dst shipping_distance) with
        | Except.ok p => FVal.pyMax (FVal.fin 0) (FVal.pyMin p mapbox_duration)
        | Except.error _ => mapbox_duration
  { distance := sanitize shipping_distance, duration := sanitize predicted_duration }

/-- Cache keys: the `f"{lon1},{lat1}-{lon2},{lat2}"` strings of
`main.py` line 302 determine and are determined by the two coordinate
pairs, so the key is modelled as the coordinate 4-tuple. -/
abbrev CacheKey := ℚ × ℚ × ℚ × ℚ

def cacheKey (src dst : Point) : CacheKey :=
  (src.longitude, src.latitude, dst.longitude, dst.latitude)

/-- `all_segments_data_cache`: a Python dict written in pass-1 iteration
order.  Modelled as an association list with the most recent write first,
so lookup-first reproduces dict overwrite semantics. -/
abbrev Cache := List (CacheKey × PairEstimate)

def cacheLookup (c : Cache) (k : CacheKey) : Option PairEstimate :=
  (c.find? (fun e => decide (e.1 = k))).map (fun e => e.2)

/-- State threaded through collection pass 1 (`main.py` lines 282–348):
the cache, the running normalization maxima (initialized to `0.0`), and —
for stating "no external call was made yet" claims — counters of provider
and predictor invocations. -/
structure Pass1State where
  cache : Cache
  maxDuration : FVal
  maxDistance : FVal
  providerCalls : ℕ
  predictorCalls : ℕ
deriving Repr

/-- All ordered pairs `(i, j)`, `i ≠ j`, in the iteration order of the two
nested `for i / for j` loops. -/
def orderedPairs (n : ℕ) : List (ℕ × ℕ) :=
  (List.range n).flatMap (fun i =>
    (List.range n).filterMap (fun j => if i = j then none else some (i, j)))

/-- One pass-1 loop iteration (`main.py` lines 299–348): collect the pair
estimate, store it in the cache, and update the running maxima with the
sanitized values. -/
def pass1Step (model : Option Model) (provider : Provider) (hour day : ℕ)
    (pts : List Point) (st : Pass1State) (p : ℕ × ℕ) : Pass1State :=
  let src := pts.getD p.1 default
  let dst := pts.getD p.2 default
  let est := collectPair model provider hour day src dst
  { cache := (cacheKey src dst, est) :: st.cache,
    maxDuration := FVal.pyMax st.maxDuration est.duration,
    maxDistance := FVal.pyMax st.maxDistance est.distance,
    providerCalls := st.providerCalls + 1,
    predictorCalls := st.predictorCalls + (if model.isSome then 1 else 0) }

/-- Collection pass 1 (`main.py` lines 293–348). -/
def pass1 (model : Option Model) (provider : Provider) (hour day : ℕ)
    (pts : List Point) : Pass1State :=
  (orderedPairs pts.length).foldl (pass1Step model provider hour day pts)
    { cache := [], maxDuration := FVal.fin 0, maxDistance := FVal.fin 0,
      providerCalls := 0, predictorCalls := 0 }

/-- Pass 2, the cost-matrix builder (`main.py` lines 350–385): floor the
maxima at `1.0`, then for each ordered pair combine the normalized cached
distance and duration under the given weights; diagonal `0.0`; missing
cache entries become `inf`. -/
def buildCostMatrix (pts : List Point) (st : Pass1State) (wt wd : ℚ) :
    List (List FVal) :=
  let maxDur := FVal.pyMax (FVal.fin 1) st.maxDuration
  let maxDist := FVal.pyMax (FVal.fin 1) st.maxDistance
  (List.range pts.length).map (fun i =>
    (List.range pts.length).map (fun j =>
      if i = j then FVal.fin 0
      else
        let src := pts.getD i default
        let dst := pts.getD j default
        match cacheLookup st.cache (cacheKey src dst) with
        | some seg =>
            let normalized_distance := FVal.fdiv seg.distance maxDist
            let normalized_duration := FVal.fdiv seg.duration maxDur
            FVal.fadd (FVal.fmul (FVal.fin wt) normalized_duration)
                      (FVal.fmul (FVal.fin wd) normalized_distance)
        | none => FVal.inf))

/-- Matrix entry access (`cost_matrix[i][j]`). -/
def mEntry (m : List (List FVal)) (i j : ℕ) : FVal :=
  (m.getD i []).getD j (FVal.fin 0)

/-- Integer matrix entry access (`scaled_cost_matrix[i][j]`). -/
def mEntryZ (m : List (List ℤ)) (i j : ℕ) : ℤ :=
  (m.getD i []).getD j 0

def INTEGER_SCALE_FACTOR : ℚ := 1000

def MAX_ORTOOLS_COST : ℤ := 1000000000

/-- Python `int()` truncation toward zero. -/
def pyInt (q : ℚ) : ℤ := if 0 ≤ q then ⌊q⌋ else ⌈q⌉

/-- One entry of the scaled matrix (`main.py` line 187):
`int(min(MAX_ORTOOLS_COST, cost * INTEGER_SCALE_FACTOR))` for a
non-`inf` cost, `MAX_ORTOOLS_COST` for `inf`.  For a NaN cost Python's
`min(MAX, nan)` keeps its first argument, giving `MAX`. -/
def scaleCost : FVal → ℤ
  | FVal.inf => MAX_ORTOOLS_COST
  | FVal.nan => MAX_ORTOOLS_COST
  | FVal.fin q => pyInt (min ((1000000000 : ℚ)) (q * INTEGER_SCALE_FACTOR))

/-- `scaled_cost_matrix` (`main.py` lines 186–187). -/
def scaledCostMatrix (cost_matrix : List (List FVal)) : List (List ℤ) :=
  cost_matrix.map (fun row => row.map scaleCost)

/-- The arc costs the solver actually sees: the registered transit callback
applies `max(0, ...)` to each scaled entry (`main.py` line 193). -/
def solverInput (cost_matrix : List (List FVal)) : List (List ℤ) :=
  (scaledCostMatrix cost_matrix).map (fun row => row.map (fun z => max 0 z))

/-- Modelled from the spec (§4.3 / §9, combinatorial solver): the external
engine behind `routing.SolveWithParameters`; given the (clamped scaled)
arc-cost matrix, the node count, and the start and end depot indices, it
returns the chain of node indices visited from start to end (what the
`NextVar` decode walk of `main.py` lines 214–225 traverses), or `none`
when no solution is found. -/
abbrev Solver := List (List ℤ) → ℕ → ℕ → ℕ → Option (List ℕ)

/-- Modelled from the spec (§4.3): the solver contract — when it returns a
solution, the visited chain is a Hamiltonian ordering, i.e. a permutation
of all node indices. -/
def SolverContract (solver : Solver) : Prop :=
  ∀ m n s e chain, solver m n s e = some chain → chain.Perm (List.range n)

/-- The decode loop of `main.py` lines 214–225: walk the chain keeping the
current node, accumulating `total_cost += cost_matrix[current][next]` on
the original unscaled float matrix. -/
def decodeTotal (cost_matrix : List (List FVal)) : List ℕ → FVal
  | [] => FVal.fin 0
  | a :: rest =>
      (rest.foldl
        (fun (acc : FVal × ℕ) b => (FVal.fadd acc.1 (mEntry cost_matrix acc.2 b), b))
        (FVal.fin 0, a)).1

/-- Result dict of `solve_tsp_with_ortools`. -/
structure SolveResult where
  route_indices : List ℕ
  total_cost : FVal
deriving DecidableEq, Repr

/-- `solve_tsp_with_ortools` (`main.py` lines 170–230), with the OR-Tools
engine abstracted as the `solver` oracle: scale the matrix, hand the
clamped integer costs to the engine, and decode the solution chain into
`route_indices` plus the unscaled `total_cost`. -/
def solve_tsp_with_ortools (solver : Solver) (cost_matrix : List (List FVal))
    (num_nodes start_depot_index end_depot_index : ℕ) : Option SolveResult :=
  match solver (solverInput cost_matrix) num_nodes start_depot_index end_depot_index with
  | none => none
  | some chain =>
      some { route_indices := chain, total_cost := decodeTotal cost_matrix chain }

/-- `RoutePoint` pydantic model. -/
structure RoutePoint where
  id : Option String
  type : PKind
  latitude : ℚ
  longitude : ℚ
deriving DecidableEq, Repr

/-- `RouteSegmentDetail` pydantic model. -/
structure RouteSegmentDetail where
  from_point_id : Option String
  to_point_id : Option String
  from_type : PKind
  to_type : PKind
  duration_seconds : FVal
  distance_meters : FVal
deriving DecidableEq, Repr

/-- `OptimizedRouteResponse` pydantic model.  The purely decorative
`full_route_geometry` / `full_route_legs` enrichment fields (spec §4.4,
"optional", read by no claim) are omitted; the provider call that would
populate them is still counted. -/
structure OptimizedRouteResponse where
  optimized_route : List RoutePoint
  total_predicted_time_seconds : FVal
  total_distance_meters : FVal
  message : String
  segments_details : Option (List RouteSegmentDetail)
deriving DecidableEq, Repr, Inhabited

/-- Outcome of one endpoint invocation: the HTTP-level result
(`Except code response`, `code` the `HTTPException` status) together with
how many provider and predictor calls were made and whether the
combinatorial solver was invoked. -/
structure RunResult where
  result : Except ℕ OptimizedRouteResponse
  providerCalls : ℕ
  predictorCalls : ℕ
  solverInvoked : Bool
deriving Repr

def toRoutePoint (p : Point) : RoutePoint :=
  { id := p.id, type := p.kind, latitude := p.latitude, longitude := p.longitude }

/-- The defensive post-condition check on the solver output
(`main.py` lines 410–413): if the returned indices are empty or do not
start at the current-location index and end at the warehouse index, fall
back to the identity order
`[depot] + [i for i in range(1, num_points - 1)] + [warehouse]`. -/
def postCheck (num_points depot_index warehouse_node_index : ℕ)
    (indices : List ℕ) : List ℕ :=
  if indices = [] ∨ indices.head? ≠ some depot_index ∨
      indices.getLast? ≠ some warehouse_node_index then
    depot_index :: (((List.range (num_points - 1)).drop 1) ++ [warehouse_node_index])
  else indices

/-- `main.py` lines 417–428: map each returned index to its `RoutePoint`,
skipping (with a warning) indices out of range. -/
def buildRoutePoints (pts : List Point) (indices : List ℕ) : List RoutePoint :=
  indices.filterMap (fun idx =>
    if idx < pts.length then some (toRoutePoint (pts.getD idx default)) else none)

/-- The totals/segments loop of `main.py` lines 471–504: for each
consecutive index pair look the cached estimate up by coordinate key; a
present, finite estimate is added to both running totals and emitted as a
segment; otherwise an infinite-metrics segment is emitted and excluded
from the totals.  (The source indexes `all_points_details[from_idx]`
unguarded, which would raise `IndexError` out of range; indices are modelled
with `getD`, the in-range cases being the only reachable ones.) -/
def buildSegments (pts : List Point) (cache : Cache) (indices : List ℕ) :
    FVal × FVal × List RouteSegmentDetail :=
  (indices.zip indices.tail).foldl
    (fun acc fp =>
      let src := pts.getD fp.1 default
      let dst := pts.getD fp.2 default
      match cacheLookup cache (cacheKey src dst) with
      | some seg =>
          if seg.distance ≠ FVal.inf ∧ seg.duration ≠ FVal.inf then
            (FVal.fadd acc.1 seg.duration, FVal.fadd acc.2.1 seg.distance,
             acc.2.2 ++ [{ from_point_id := src.id, to_point_id := dst.id,
                           from_type := src.kind, to_type := dst.kind,
                           duration_seconds := seg.duration,
                           distance_meters := seg.distance }])
          else
            (acc.1, acc.2.1,
             acc.2.2 ++ [{ from_point_id := src.id, to_point_id := dst.id,
                           from_type := src.kind, to_type := dst.kind,
                           duration_seconds := FVal.inf,
                           distance_meters := FVal.inf }])
      | none =>
          (acc.1, acc.2.1,
           acc.2.2 ++ [{ from_point_id := src.id, to_point_id := dst.id,
                         from_type := src.kind, to_type := dst.kind,
                         duration_seconds := FVal.inf,
                         distance_meters := FVal.inf }]))
    (FVal.fin 0, FVal.fin 0, [])

/-- The cost matrix the endpoint builds (`main.py` lines 271–385): pass 1
over all ordered pairs, then pass 2 with the weights normalized by their
sum. -/
def endpointCostMatrix (cfg : Config) (model : Option Model) (provider : Provider)
    (hour day : ℕ) (request : OptimizeRouteRequest) : List (List FVal) :=
  let pts := allPoints cfg request
  let total_weights := request.weight_time + request.weight_distance
  buildCostMatrix pts (pass1 model provider hour day pts)
    (request.weight_time / total_weights) (request.weight_distance / total_weights)

/-- The solver-and-assembly phase of the endpoint
(`main.py` lines 282–518), reached once the input guards have passed. -/
def runSolverPhase (cfg : Config) (model : Option Model) (provider : Provider)
    (solver : Solver) (hour day : ℕ) (request : OptimizeRouteRequest) : RunResult :=
  let pts := allPoints cfg request
  let num_points := pts.length
  let st := pass1 model provider hour day pts
  let cm := endpointCostMatrix cfg model provider hour day request
  match solve_tsp_with_ortools solver cm num_points 0 (num_points - 1) with
  | none =>
      { result := Except.error 500, providerCalls := st.providerCalls,
        predictorCalls := st.predictorCalls, solverInvoked := true }
  | some res =>
      let indices := postCheck num_points 0 (num_points - 1) res.route_indices
      let route_points := buildRoutePoints pts indices
      -- full-route geometry enrichment call (`main.py` lines 434–440):
      -- issued whenever more than one point survived; payload unused here.
      let geometryCalls : ℕ := if route_points.length > 1 then 1 else 0
      let bs := buildSegments pts st.cache indices
      { result := Except.ok
          { optimized_route := route_points,
            total_predicted_time_seconds := bs.1,
            total_distance_meters := bs.2.1,
            message := "Route optimized successfully.",
            segments_details := some bs.2.2 },
        providerCalls := st.providerCalls + geometryCalls,
        predictorCalls := st.predictorCalls,
        solverInvoked := true }

/-- The `/optimize_delivery_route/` endpoint (`main.py` lines 236–518):
the `num_points <= 1` direct-route shortcut, the zero-total-weight
rejection (HTTP 400), then collection, matrix building, solving
(HTTP 500 on solver failure), post-check/fallback, and assembly. -/
def optimize_delivery_route (cfg : Config) (model : Option Model)
    (provider : Provider) (solver : Solver) (hour day : ℕ)
    (request : OptimizeRouteRequest) : RunResult :=
  let warehouse_lat := request.warehouse_latitude.getD cfg.warehouse_latitude
  let warehouse_lon := request.warehouse_longitude.getD cfg.warehouse_longitude
  let num_points := (allPoints cfg request).length
  if num_points ≤ 1 then
    { result := Except.ok
        { optimized_route :=
            [{ id := none, type := PKind.current_location,
               latitude := request.current_latitude,
               longitude := request.current_longitude },
             { id := none, type := PKind.warehouse,
               latitude := warehouse_lat, longitude := warehouse_lon }],
          total_predicted_time_seconds := FVal.fin 0,
          total_distance_meters := FVal.fin 0,
          message := "No orders provided or only current location and warehouse. Returning direct route to warehouse.",
          segments_details := none },
      providerCalls := 0, predictorCalls := 0, solverInvoked := false }
  else if request.weight_time + request.weight_distance = 0 then
    { result := Except.error 400, providerCalls := 0, predictorCalls := 0,
      solverInvoked := false }
  else
    runSolverPhase cfg model provider solver hour day request

/-! ### Basic facts about the float model and the sanitizer -/

/-- A value is sane when it is finite and nonnegative — the shape every
value downstream of the Estimate Collector's sanitizer has. -/
def Sane (v : FVal) : Prop := ∃ q : ℚ, v = FVal.fin q ∧ 0 ≤ q

/-- Finite comparison witness used for the running-maximum invariants. -/
def fle (a b : FVal) : Prop := ∃ p q : ℚ, a = FVal.fin p ∧ b = FVal.fin q ∧ p ≤ q

theorem pyMax_fin (a b : ℚ) :
    FVal.pyMax (FVal.fin a) (FVal.fin b) = FVal.fin (max a b) := by
  unfold FVal.pyMax FVal.flt
  by_cases h : a < b
  · simp [h, max_eq_right h.le]
  · simp [h, max_eq_left (not_lt.mp h)]

theorem sanitize_sane (v : FVal) : Sane (sanitize v) := by
  unfold sanitize
  split
  · exact ⟨SENTINEL, rfl, by norm_num [SENTINEL]⟩
  · rename_i h
    push_neg at h
    obtain ⟨h1, _, h3⟩ := h
    cases v with
    | fin q =>
        refine ⟨q, rfl, ?_⟩
        by_contra hq
        exact h3 (by simpa [FVal.flt] using not_le.mp hq)
    | inf => exact absurd rfl h1
    | nan => simp_all [FVal.isnan]

theorem sanitize_bad {v : FVal}
    (h : v = FVal.inf ∨ v.isnan = true ∨ FVal.flt v (FVal.fin 0) = true) :
    sanitize v = FVal.fin SENTINEL := by
  unfold sanitize
  exact if_pos h

theorem collectPair_distance_sane (model : Option Model) (provider : Provider)
    (hour day : ℕ) (src dst : Point) :
    Sane (collectPair model provider hour day src dst).distance :=
  sanitize_sane _

theorem collectPair_duration_sane (model : Option Model) (provider : Provider)
    (hour day : ℕ) (src dst : Point) :
    Sane (collectPair model provider hour day src dst).duration :=
  sanitize_sane _

/-- A failed provider call yields the sentinel distance for that pair. -/
theorem collectPair_fail_distance (model : Option Model) (provider : Provider)
    (hour day : ℕ) (src dst : Point)
    (h : provider (src.longitude, src.latitude) (dst.longitude, dst.latitude) = none) :
    (collectPair model provider hour day src dst).distance = FVal.fin SENTINEL := by
  unfold collectPair
  rw [h]
  exact sanitize_bad (Or.inl rfl)

/-- With no predictor loaded, a failed provider call yields the sentinel
duration for that pair. -/
theorem collectPair_fail_duration_no_model (provider : Provider)
    (hour day : ℕ) (src dst : Point)
    (h : provider (src.longitude, src.latitude) (dst.longitude, dst.latitude) = none) :
    (collectPair none provider hour day src dst).duration = FVal.fin SENTINEL := by
  unfold collectPair
  rw [h]
  exact sanitize_bad (Or.inl rfl)

/-! ### Pass-1 invariants: sane cache values bounded by the running maxima -/

theorem mem_orderedPairs {n i j : ℕ} :
    (i, j) ∈ orderedPairs n ↔ i < n ∧ j < n ∧ i ≠ j := by
  simp only [orderedPairs, List.mem_flatMap, List.mem_filterMap, List.mem_range]
  constructor
  · rintro ⟨a, ha, b, hb, hab⟩
    split at hab
    · exact absurd hab (by simp)
    · rename_i hne
      simp only [Option.some.injEq, Prod.mk.injEq] at hab
      obtain ⟨rfl, rfl⟩ := hab
      exact ⟨ha, hb, hne⟩
  · rintro ⟨hi, hj, hne⟩
    exact ⟨i, hi, j, hj, by rw [if_neg hne]⟩

/-- The invariant maintained through collection pass 1: every cached value
is sane and bounded by the corresponding running maximum, and the maxima
themselves are sane. -/
def Pass1Inv (st : Pass1State) : Prop :=
  (∀ e ∈ st.cache, Sane e.2.distance ∧ Sane e.2.duration ∧
      fle e.2.distance st.maxDistance ∧ fle e.2.duration st.maxDuration) ∧
    Sane st.maxDistance ∧ Sane st.maxDuration

theorem pass1Step_inv (model : Option Model) (provider : Provider) (hour day : ℕ)
    (pts : List Point) (st : Pass1State) (p : ℕ × ℕ) (h : Pass1Inv st) :
    Pass1Inv (pass1Step model provider hour day pts st p) := by
  obtain ⟨hc, ⟨md, hmd, hmd0⟩, ⟨mt, hmt, hmt0⟩⟩ := h
  obtain ⟨dq, hdq, hdq0⟩ :=
    collectPair_distance_sane model provider hour day (pts.getD p.1 default) (pts.getD p.2 default)
  obtain ⟨tq, htq, htq0⟩ :=
    collectPair_duration_sane model provider hour day (pts.getD p.1 default) (pts.getD p.2 default)
  dsimp only [pass1Step]
  refine ⟨?_, ?_, ?_⟩
  · intro e he
    rcases List.mem_cons.mp he with rfl | he
    · refine ⟨⟨dq, hdq, hdq0⟩, ⟨tq, htq, htq0⟩, ?_, ?_⟩
      · rw [hdq, hmd, pyMax_fin]
        exact ⟨dq, md ⊔ dq, rfl, rfl, le_max_right _ _⟩
      · rw [htq, hmt, pyMax_fin]
        exact ⟨tq, mt ⊔ tq, rfl, rfl, le_max_right _ _⟩
    · obtain ⟨hs1, hs2, ⟨p1, q1, he1, he2, hle1⟩, ⟨p2, q2, he3, he4, hle2⟩⟩ := hc e he
      rw [hmd] at he2
      rw [hmt] at he4
      obtain rfl : md = q1 := FVal.fin.inj he2
      obtain rfl : mt = q2 := FVal.fin.inj he4
      refine ⟨hs1, hs2, ?_, ?_⟩
      · rw [hdq, hmd, pyMax_fin]
        exact ⟨p1, md ⊔ dq, he1, rfl, hle1.trans (le_max_left _ _)⟩
      · rw [htq, hmt, pyMax_fin]
        exact ⟨p2, mt ⊔ tq, he3, rfl, hle2.trans (le_max_left _ _)⟩
  · rw [hmd, hdq, pyMax_fin]
    exact ⟨md ⊔ dq, rfl, le_max_of_le_left hmd0⟩
  · rw [hmt, htq, pyMax_fin]
    exact ⟨mt ⊔ tq, rfl, le_max_of_le_left hmt0⟩

theorem foldl_pass1_inv (model : Option Model) (provider : Provider) (hour day : ℕ)
    (pts : List Point) (l : List (ℕ × ℕ)) (st : Pass1State) (h : Pass1Inv st) :
    Pass1Inv (l.foldl (pass1Step model provider hour day pts) st) := by
  induction l generalizing st with
  | nil => exact h
  | cons p l ih => exact ih _ (pass1Step_inv model provider hour day pts st p h)

theorem pass1_inv (model : Option Model) (provider : Provider) (hour day : ℕ)
    (pts : List Point) : Pass1Inv (pass1 model provider hour day pts) := by
  unfold pass1
  refine foldl_pass1_inv model provider hour day pts _ _ ⟨?_, ⟨0, rfl, le_refl 0⟩, ⟨0, rfl, le_refl 0⟩⟩
  intro e he
  exact absurd he (List.not_mem_nil e)

theorem cacheLookup_insert_self (c : Cache) (k : CacheKey) (v : PairEstimate) :
    cacheLookup ((k, v) :: c) k = some v := by
  simp [cacheLookup, List.find?]

theorem cacheLookup_cons_isSome {c : Cache} {k : CacheKey} (e : CacheKey × PairEstimate)
    (h : (cacheLookup c k).isSome) : (cacheLookup (e :: c) k).isSome := by
  unfold cacheLookup at *
  rw [List.find?_cons]
  split
  · simp
  · exact h

/-- A successful cache lookup returns a stored entry value. -/
theorem cacheLookup_mem {c : Cache} {k : CacheKey} {v : PairEstimate}
    (h : cacheLookup c k = some v) : ∃ k', (k', v) ∈ c := by
  unfold cacheLookup at h
  obtain ⟨e, he, rfl⟩ := Option.map_eq_some'.mp h
  exact ⟨e.1, List.mem_of_find?_eq_some he⟩

theorem foldl_pass1_lookup_mono (model : Option Model) (provider : Provider)
    (hour day : ℕ) (pts : List Point) (l : List (ℕ × ℕ)) (st : Pass1State)
    (k : CacheKey) (h : (cacheLookup st.cache k).isSome) :
    (cacheLookup (l.foldl (pass1Step model provider hour day pts) st).cache k).isSome := by
  induction l generalizing st with
  | nil => exact h
  | cons p l ih =>
      refine ih _ ?_
      dsimp only [pass1Step]
      exact cacheLookup_cons_isSome _ h

theorem foldl_pass1_lookup (model : Option Model) (provider : Provider)
    (hour day : ℕ) (pts : List Point) (l : List (ℕ × ℕ)) (st : Pass1State)
    {i j : ℕ} (hmem : (i, j) ∈ l) :
    (cacheLookup (l.foldl (pass1Step model provider hour day pts) st).cache
      (cacheKey (pts.getD i default) (pts.getD j default))).isSome := by
  induction l generalizing st with
  | nil => exact absurd hmem (List.not_mem_nil _)
  | cons p l ih =>
      rcases List.mem_cons.mp hmem with rfl | hmem
      · refine foldl_pass1_lookup_mono model provider hour day pts l _ _ ?_
        dsimp only [pass1Step]
        rw [cacheLookup_insert_self]
        rfl
      · exact ih _ hmem

/-- After pass 1 the cache has an entry for the coordinate key of every
ordered pair of distinct indices. -/
theorem pass1_complete (model : Option Model) (provider : Provider) (hour day : ℕ)
    (pts : List Point) {i j : ℕ} (hi : i < pts.length) (hj : j < pts.length)
    (hne : i ≠ j) :
    (cacheLookup (pass1 model provider hour day pts).cache
      (cacheKey (pts.getD i default) (pts.getD j default))).isSome := by
  unfold pass1
  exact foldl_pass1_lookup model provider hour day pts _ _
    (mem_orderedPairs.mpr ⟨hi, hj, hne⟩)

/-! ### The point list -/

theorem allPoints_length (cfg : Config) (request : OptimizeRouteRequest) :
    (allPoints cfg request).length = request.orders.length + 2 := by
  simp [allPoints]

theorem allPoints_getD_zero (cfg : Config) (request : OptimizeRouteRequest) :
    (allPoints cfg request).getD 0 default = currentPoint request := rfl

theorem getD_append_singleton {α : Type} (l : List α) (w d : α) :
    (l ++ [w]).getD l.length d = w := by
  induction l with
  | nil => rfl
  | cons a t ih => simpa using ih

theorem allPoints_getD_last (cfg : Config) (request : OptimizeRouteRequest) :
    (allPoints cfg request).getD (request.orders.length + 1) default =
      warehousePoint cfg request := by
  unfold allPoints
  rw [List.getD_cons_succ]
  have := getD_append_singleton
    (request.orders.map (fun o =>
      { id := some o.id, kind := PKind.order, latitude := o.latitude,
        longitude := o.longitude, weight := some o.weight } : OrderInput → Point))
    (warehousePoint cfg request) default
  simpa using this

/-! ### Cost-matrix entries -/

theorem getD_map_range {α : Type} (f : ℕ → α) (n : ℕ) {i : ℕ} (hi : i < n) (d : α) :
    ((List.range n).map f).getD i d = f i := by
  rw [List.getD_eq_getElem?_getD, List.getElem?_map, List.getElem?_range hi]
  rfl

theorem mEntry_buildCostMatrix (pts : List Point) (st : Pass1State) (wt wd : ℚ)
    {i j : ℕ} (hi : i < pts.length) (hj : j < pts.length) :
    mEntry (buildCostMatrix pts st wt wd) i j =
      if i = j then FVal.fin 0
      else
        match cacheLookup st.cache
            (cacheKey (pts.getD i default) (pts.getD j default)) with
        | some seg =>
            FVal.fadd
              (FVal.fmul (FVal.fin wt)
                (FVal.fdiv seg.duration (FVal.pyMax (FVal.fin 1) st.maxDuration)))
              (FVal.fmul (FVal.fin wd)
                (FVal.fdiv seg.distance (FVal.pyMax (FVal.fin 1) st.maxDistance)))
        | none => FVal.inf := by
  unfold buildCostMatrix mEntry
  dsimp only
  rw [getD_map_range _ _ hi, getD_map_range _ _ hj]

/-- Off-diagonal cost-matrix entries built by the endpoint are the weighted
combination of the cached normalized values; the full characterization used
by the invariants below. -/
theorem endpointCostMatrix_entry (cfg : Config) (model : Option Model)
    (provider : Provider) (hour day : ℕ) (request : OptimizeRouteRequest)
    {i j : ℕ} (hi : i < (allPoints cfg request).length)
    (hj : j < (allPoints cfg request).length) (hne : i ≠ j) :
    ∃ dq tq md mt : ℚ,
      mEntry (endpointCostMatrix cfg model provider hour day request) i j =
        FVal.fin
          ((request.weight_time / (request.weight_time + request.weight_distance)) *
              (tq / (1 ⊔ mt)) +
            (request.weight_distance / (request.weight_time + request.weight_distance)) *
              (dq / (1 ⊔ md))) ∧
      0 ≤ dq ∧ dq ≤ md ∧ 0 ≤ tq ∧ tq ≤ mt := by
  set pts := allPoints cfg request with hpts
  obtain ⟨hcache, ⟨md, hmd, hmd0⟩, ⟨mt, hmt, hmt0⟩⟩ := pass1_inv model provider hour day pts
  have hsome := pass1_complete model provider hour day pts hi hj hne
  obtain ⟨seg, hseg⟩ := Option.isSome_iff_exists.mp hsome
  obtain ⟨k', hk'⟩ := cacheLookup_mem hseg
  obtain ⟨⟨dq, hdq, hdq0⟩, ⟨tq, htq, htq0⟩, ⟨dp, dm, hdp, hdm, hled⟩, ⟨tp, tm, htp, htm, hlet⟩⟩ :=
    hcache _ hk'
  replace hdq : seg.distance = FVal.fin dq := hdq
  replace htq : seg.duration = FVal.fin tq := htq
  replace hdp : seg.distance = FVal.fin dp := hdp
  replace htp : seg.duration = FVal.fin tp := htp
  rw [hmd] at hdm
  rw [hmt] at htm
  obtain rfl : md = dm := FVal.fin.inj hdm
  obtain rfl : mt = tm := FVal.fin.inj htm
  rw [hdq] at hdp
  rw [htq] at htp
  obtain rfl : dq = dp := FVal.fin.inj hdp
  obtain rfl : tq = tp := FVal.fin.inj htp
  refine ⟨dq, tq, md, mt, ?_, hdq0, hled, htq0, hlet⟩
  unfold endpointCostMatrix
  rw [mEntry_buildCostMatrix _ _ _ _ (by simpa using hi) (by simpa using hj), if_neg hne]
  rw [← hpts, hseg]
  dsimp only
  rw [hdq, htq, hmd, hmt, pyMax_fin, pyMax_fin]
  have h1 : (1 : ℚ) ⊔ md ≠ 0 := by positivity
  have h2 : (1 : ℚ) ⊔ mt ≠ 0 := by positivity
  simp [FVal.fdiv, FVal.fmul, FVal.fadd, h1, h2]

/-- Every entry of the cost matrix the endpoint builds is finite: the
pass-1 cache is complete, so the missing-data `inf` branch never fires. -/
theorem endpointCostMatrix_entry_fin (cfg : Config) (model : Option Model)
    (provider : Provider) (hour day : ℕ) (request : OptimizeRouteRequest)
    {i j : ℕ} (hi : i < (allPoints cfg request).length)
    (hj : j < (allPoints cfg request).length) :
    ∃ q : ℚ, mEntry (endpointCostMatrix cfg model provider hour day request) i j =
      FVal.fin q := by
  by_cases hne : i = j
  · subst hne
    refine ⟨0, ?_⟩
    unfold endpointCostMatrix
    rw [mEntry_buildCostMatrix _ _ _ _ (by simpa using hi) (by simpa using hi), if_pos rfl]
  · obtain ⟨dq, tq, md, mt, heq, -⟩ :=
      endpointCostMatrix_entry cfg model provider hour day request hi hj hne
    exact ⟨_, heq⟩

/-! ### Post-check and route assembly -/

theorem zero_cons_drop_range {m : ℕ} (h : 0 < m) :
    (0 : ℕ) :: (List.range m).drop 1 = List.range m := by
  cases m with
  | zero => exact absurd h (by simp)
  | succ k => rw [List.range_succ_eq_map]; rfl

theorem identity_eq_range {n : ℕ} (h : 2 ≤ n) :
    (0 : ℕ) :: (((List.range (n - 1)).drop 1) ++ [n - 1]) = List.range n := by
  have h1 : 0 < n - 1 := by omega
  have h2 : n - 1 + 1 = n := by omega
  calc (0 : ℕ) :: (((List.range (n - 1)).drop 1) ++ [n - 1])
      = ((0 : ℕ) :: (List.range (n - 1)).drop 1) ++ [n - 1] := rfl
    _ = List.range (n - 1) ++ [n - 1] := by rw [zero_cons_drop_range h1]
    _ = List.range (n - 1 + 1) := (List.range_succ _).symm
    _ = List.range n := by rw [h2]

/-- Whatever chain the solver hands back, the post-checked index list is a
permutation of all node indices starting at the current-location index and
ending at the warehouse index — provided the chain was such a permutation
already or the defensive check fired and replaced it. -/
theorem postCheck_spec {n : ℕ} (h2 : 2 ≤ n) (chain : List ℕ)
    (hperm : chain.Perm (List.range n)) :
    (postCheck n 0 (n - 1) chain).Perm (List.range n) ∧
      (postCheck n 0 (n - 1) chain).head? = some 0 ∧
      (postCheck n 0 (n - 1) chain).getLast? = some (n - 1) := by
  unfold postCheck
  split
  · rw [identity_eq_range h2]
    refine ⟨List.Perm.refl _, ?_, ?_⟩
    · rw [← identity_eq_range h2]; rfl
    · have h2' : n - 1 + 1 = n := by omega
      rw [← h2', List.range_succ]
      exact List.getLast?_concat _
  · rename_i hcond
    push_neg at hcond
    exact ⟨hperm, hcond.2.1, hcond.2.2⟩

/-- Bound for the weighted combination of two normalized values. -/
theorem combined_bound {wt wd x y : ℚ} (hwt : 0 ≤ wt) (hwd : 0 ≤ wd)
    (hsum : wt + wd = 1) (hx0 : 0 ≤ x) (hx1 : x ≤ 1) (hy0 : 0 ≤ y) (hy1 : y ≤ 1) :
    0 ≤ wt * x + wd * y ∧ wt * x + wd * y ≤ 1 := by
  constructor
  · positivity
  · nlinarith

/-- With nonnegative request weights of nonzero sum, every finite entry of
the endpoint's cost matrix lies in `[0, 1]`. -/
theorem endpointCostMatrix_entry_bounds (cfg : Config) (model : Option Model)
    (provider : Provider) (hour day : ℕ) (request : OptimizeRouteRequest)
    (hwt : 0 ≤ request.weight_time) (hwd : 0 ≤ request.weight_distance)
    (hw : request.weight_time + request.weight_distance ≠ 0)
    {i j : ℕ} (hi : i < (allPoints cfg request).length)
    (hj : j < (allPoints cfg request).length) {q : ℚ}
    (hq : mEntry (endpointCostMatrix cfg model provider hour day request) i j =
      FVal.fin q) :
    0 ≤ q ∧ q ≤ 1 := by
  have hwpos : 0 < request.weight_time + request.weight_distance :=
    lt_of_le_of_ne (by positivity) (Ne.symm hw)
  by_cases hne : i = j
  · subst hne
    have : mEntry (endpointCostMatrix cfg model provider hour day request) i i =
        FVal.fin 0 := by
      unfold endpointCostMatrix
      rw [mEntry_buildCostMatrix _ _ _ _ (by simpa using hi) (by simpa using hi),
        if_pos rfl]
    rw [this] at hq
    obtain rfl : q = 0 := (FVal.fin.inj hq).symm
    norm_num
  · obtain ⟨dq, tq, md, mt, heq, hdq0, hled, htq0, hlet⟩ :=
      endpointCostMatrix_entry cfg model provider hour day request hi hj hne
    rw [heq] at hq
    obtain rfl := (FVal.fin.inj hq).symm
    have hmd1 : (0 : ℚ) < 1 ⊔ md := lt_max_of_lt_left one_pos
    have hmt1 : (0 : ℚ) < 1 ⊔ mt := lt_max_of_lt_left one_pos
    have hx0 : 0 ≤ tq / (1 ⊔ mt) := by positivity
    have hx1 : tq / (1 ⊔ mt) ≤ 1 :=
      (div_le_one hmt1).mpr (hlet.trans (le_max_right _ _))
    have hy0 : 0 ≤ dq / (1 ⊔ md) := by positivity
    have hy1 : dq / (1 ⊔ md) ≤ 1 :=
      (div_le_one hmd1).mpr (hled.trans (le_max_right _ _))
    have hsum : request.weight_time / (request.weight_time + request.weight_distance) +
        request.weight_distance / (request.weight_time + request.weight_distance) = 1 := by
      field_simp
    exact combined_bound (by positivity) (by positivity) hsum hx0 hx1 hy0 hy1

/-- Scaling a cost in `[0, 1]` gives an integer in `[0, 1000]`
(`int(min(10**9, cost * 1000))`). -/
theorem scaleCost_unit {q : ℚ} (h0 : 0 ≤ q) (h1 : q ≤ 1) :
    0 ≤ scaleCost (FVal.fin q) ∧ scaleCost (FVal.fin q) ≤ 1000 := by
  have hmin : min ((1000000000 : ℚ)) (q * 1000) = q * 1000 :=
    min_eq_right (by nlinarith)
  have hsc : scaleCost (FVal.fin q) = ⌊q * 1000⌋ := by
    unfold scaleCost pyInt INTEGER_SCALE_FACTOR
    dsimp only
    rw [hmin, if_pos (by positivity)]
  rw [hsc]
  constructor
  · exact Int.floor_nonneg.mpr (by positivity)
  · calc ⌊q * 1000⌋ ≤ ⌊(1000 : ℚ)⌋ := Int.floor_le_floor (by nlinarith)
      _ = 1000 := by norm_num

/-! ### Decoding: the unscaled total cost is the path sum (claim C8) -/

/-- The sum of the original (unscaled) cost-matrix entries over the
consecutive pairs of an index list. -/
def pathCostSum (cost_matrix : List (List FVal)) (ids : List ℕ) : FVal :=
  ((ids.zip ids.tail).map (fun p => mEntry cost_matrix p.1 p.2)).foldl
    FVal.fadd (FVal.fin 0)

theorem decodeTotal_loop_eq (cost_matrix : List (List FVal)) (rest : List ℕ)
    (a : ℕ) (t : FVal) :
    (rest.foldl
        (fun (acc : FVal × ℕ) b =>
          (FVal.fadd acc.1 (mEntry cost_matrix acc.2 b), b)) (t, a)).1 =
      ((( a :: rest).zip rest).map (fun p => mEntry cost_matrix p.1 p.2)).foldl
        FVal.fadd t := by
  induction rest generalizing a t with
  | nil => rfl
  | cons b r ih =>
      rw [List.foldl_cons, ih b (FVal.fadd t (mEntry cost_matrix a b)),
        List.zip_cons_cons, List.map_cons, List.foldl_cons]

theorem decodeTotal_eq_pathCostSum (cost_matrix : List (List FVal))
    (ids : List ℕ) : decodeTotal cost_matrix ids = pathCostSum cost_matrix ids := by
  cases ids with
  | nil => rfl
  | cons a rest =>
      rw [show decodeTotal cost_matrix (a :: rest) =
            (rest.foldl (fun (acc : FVal × ℕ) b =>
              (FVal.fadd acc.1 (mEntry cost_matrix acc.2 b), b))
              (FVal.fin 0, a)).1 from rfl,
        decodeTotal_loop_eq]
      rfl

/-! ### Route-point assembly -/

theorem range_map_getD {α : Type} (l : List α) (d : α) :
    (List.range l.length).map (fun i => l.getD i d) = l := by
  induction l with
  | nil => rfl
  | cons a t ih =>
      rw [List.length_cons, List.range_succ_eq_map, List.map_cons, List.map_map]
      have hcomp : ((fun i => (a :: t).getD i d) ∘ Nat.succ) = (fun i => t.getD i d) := by
        funext i
        exact List.getD_cons_succ
      rw [hcomp, ih, List.getD_cons_zero]

theorem buildRoutePoints_all_lt (pts : List Point) (indices : List ℕ)
    (h : ∀ idx ∈ indices, idx < pts.length) :
    buildRoutePoints pts indices =
      indices.map (fun idx => toRoutePoint (pts.getD idx default)) := by
  induction indices with
  | nil => rfl
  | cons a t ih =>
      unfold buildRoutePoints at *
      rw [List.filterMap_cons, List.map_cons]
      rw [if_pos (h a (List.mem_cons_self a t))]
      rw [ih (fun idx hidx => h idx (List.mem_cons_of_mem a hidx))]

/-! ### Segment assembly and totals -/

/-- Accumulated totals over emitted segments. -/
def sumF (l : List FVal) : FVal := l.foldl FVal.fadd (FVal.fin 0)

/-- A consecutive index pair is good when its cached estimate exists and
both metrics are finite and nonnegative. -/
def GoodPair (pts : List Point) (cache : Cache) (p : ℕ × ℕ) : Prop :=
  ∃ seg, cacheLookup cache (cacheKey (pts.getD p.1 default) (pts.getD p.2 default)) =
      some seg ∧ Sane seg.distance ∧ Sane seg.duration

theorem buildSegments_foldl_spec (pts : List Point) (cache : Cache)
    (prs : List (ℕ × ℕ)) (h : ∀ p ∈ prs, GoodPair pts cache p)
    (acc : FVal × FVal × List RouteSegmentDetail)
    (hacc : acc.1 = sumF (acc.2.2.map (fun s => s.duration_seconds)) ∧
      acc.2.1 = sumF (acc.2.2.map (fun s => s.distance_meters)) ∧
      ∀ s ∈ acc.2.2, Sane s.duration_seconds ∧ Sane s.distance_meters) :
    let r := prs.foldl
      (fun acc fp =>
        let src := pts.getD fp.1 default
        let dst := pts.getD fp.2 default
        match cacheLookup cache (cacheKey src dst) with
        | some seg =>
            if seg.distance ≠ FVal.inf ∧ seg.duration ≠ FVal.inf then
              (FVal.fadd acc.1 seg.duration, FVal.fadd acc.2.1 seg.distance,
               acc.2.2 ++ [{ from_point_id := src.id, to_point_id := dst.id,
                             from_type := src.kind, to_type := dst.kind,
                             duration_seconds := seg.duration,
                             distance_meters := seg.distance }])
            else
              (acc.1, acc.2.1,
               acc.2.2 ++ [{ from_point_id := src.id, to_point_id := dst.id,
                             from_type := src.kind, to_type := dst.kind,
                             duration_seconds := FVal.inf,
                             distance_meters := FVal.inf }])
        | none =>
            (acc.1, acc.2.1,
             acc.2.2 ++ [{ from_point_id := src.id, to_point_id := dst.id,
                           from_type := src.kind, to_type := dst.kind,
                           duration_seconds := FVal.inf,
                           distance_meters := FVal.inf }])) acc
    r.1 = sumF (r.2.2.map (fun s => s.duration_seconds)) ∧
      r.2.1 = sumF (r.2.2.map (fun s => s.distance_meters)) ∧
      ∀ s ∈ r.2.2, Sane s.duration_seconds ∧ Sane s.distance_meters := by
  induction prs generalizing acc with
  | nil => exact hacc
  | cons p prs ih =>
      rw [List.foldl_cons]
      obtain ⟨seg, hseg, ⟨dq, hdq, hdq0⟩, ⟨tq, htq, htq0⟩⟩ :=
        h p (List.mem_cons_self p prs)
      refine ih (fun p hp => h p (List.mem_cons_of_mem _ hp)) _ ?_
      dsimp only
      rw [hseg]
      dsimp only
      rw [if_pos ⟨by rw [hdq]; exact fun hc => FVal.noConfusion hc,
        by rw [htq]; exact fun hc => FVal.noConfusion hc⟩]
      obtain ⟨h1, h2, h3⟩ := hacc
      refine ⟨?_, ?_, ?_⟩
      · dsimp only
        rw [h1, List.map_append, List.map_cons, List.map_nil]
        unfold sumF
        rw [List.foldl_append, List.foldl_cons, List.foldl_nil]
      · dsimp only
        rw [h2, List.map_append, List.map_cons, List.map_nil]
        unfold sumF
        rw [List.foldl_append, List.foldl_cons, List.foldl_nil]
      · dsimp only
        intro s hs
        rcases List.mem_append.mp hs with hs | hs
        · exact h3 s hs
        · rcases List.mem_singleton.mp hs with rfl
          exact ⟨⟨tq, htq, htq0⟩, ⟨dq, hdq, hdq0⟩⟩

/-- The totals/segments loop: when every consecutive pair has a finite
cached estimate, the emitted totals are exactly the sums of the emitted
per-segment metrics, and every emitted metric is finite and nonnegative. -/
theorem buildSegments_spec (pts : List Point) (cache : Cache) (indices : List ℕ)
    (h : ∀ p ∈ indices.zip indices.tail, GoodPair pts cache p) :
    (buildSegments pts cache indices).1 =
      sumF ((buildSegments pts cache indices).2.2.map (fun s => s.duration_seconds)) ∧
    (buildSegments pts cache indices).2.1 =
      sumF ((buildSegments pts cache indices).2.2.map (fun s => s.distance_meters)) ∧
    ∀ s ∈ (buildSegments pts cache indices).2.2,
      Sane s.duration_seconds ∧ Sane s.distance_meters := by
  exact buildSegments_foldl_spec pts cache _ h (FVal.fin 0, FVal.fin 0, [])
    ⟨rfl, rfl, by intro s hs; exact absurd hs (List.not_mem_nil s)⟩

/-! ### Consecutive pairs of a duplicate-free index list -/

theorem zip_tail_mem {l : List ℕ} {p : ℕ × ℕ} (hp : p ∈ l.zip l.tail) :
    p.1 ∈ l ∧ p.2 ∈ l := by
  obtain ⟨a, b⟩ := p
  exact ⟨(List.of_mem_zip hp).1, List.mem_of_mem_tail (List.of_mem_zip hp).2⟩

theorem zip_tail_ne {l : List ℕ} (hnd : l.Nodup) :
    ∀ p ∈ l.zip l.tail, p.1 ≠ p.2 := by
  induction l with
  | nil => intro p hp; exact absurd hp (List.not_mem_nil p)
  | cons a t ih =>
      cases t with
      | nil => intro p hp; exact absurd hp (List.not_mem_nil p)
      | cons b t' =>
          intro p hp
          rw [show (a :: b :: t').tail = b :: t' from rfl, List.zip_cons_cons] at hp
          rcases List.mem_cons.mp hp with rfl | hp
          · intro hab
            replace hab : a = b := hab
            subst hab
            exact (List.nodup_cons.mp hnd).1 (List.mem_cons_self a t')
          · exact ih hnd.of_cons p hp

/-! ### Unfolding the endpoint -/

theorem optimize_never_shortcut (cfg : Config) (request : OptimizeRouteRequest) :
    ¬ (allPoints cfg request).length ≤ 1 := by
  rw [allPoints_length]
  omega

theorem optimize_eq_phase (cfg : Config) (model : Option Model)
    (provider : Provider) (solver : Solver) (hour day : ℕ)
    (request : OptimizeRouteRequest)
    (hw : request.weight_time + request.weight_distance ≠ 0) :
    optimize_delivery_route cfg model provider solver hour day request =
      runSolverPhase cfg model provider solver hour day request := by
  unfold optimize_delivery_route
  rw [if_neg (optimize_never_shortcut cfg request), if_neg hw]

theorem optimize_zero_weights (cfg : Config) (model : Option Model)
    (provider : Provider) (solver : Solver) (hour day : ℕ)
    (request : OptimizeRouteRequest)
    (hw : request.weight_time + request.weight_distance = 0) :
    optimize_delivery_route cfg model provider solver hour day request =
      { result := Except.error 400, providerCalls := 0, predictorCalls := 0,
        solverInvoked := false } := by
  unfold optimize_delivery_route
  rw [if_neg (optimize_never_shortcut cfg request), if_pos hw]

/-! ### Concrete fixtures for witnesses and counterexamples -/

/-- Extract the successful response of a run (default on error). -/
def respOf (r : RunResult) : OptimizedRouteResponse :=
  match r.result with
  | Except.ok resp => resp
  | Except.error _ => default

def witCfg : Config := { warehouse_latitude := 10, warehouse_longitude := 106 }

def witOrder : OrderInput := { id := "o1", latitude := 1, longitude := 2, weight := 5 }

/-- A request with one order. -/
def witReq1 : OptimizeRouteRequest :=
  { orders := [witOrder], warehouse_latitude := none, warehouse_longitude := none,
    current_latitude := 3, current_longitude := 4,
    weight_time := 1/2, weight_distance := 1/2 }

/-- A request with zero orders. -/
def witReq0 : OptimizeRouteRequest :=
  { orders := [], warehouse_latitude := none, warehouse_longitude := none,
    current_latitude := 3, current_longitude := 4,
    weight_time := 1/2, weight_distance := 1/2 }

/-- A request with both weights zero. -/
def witReqW0 : OptimizeRouteRequest :=
  { orders := [witOrder], warehouse_latitude := none, warehouse_longitude := none,
    current_latitude := 3, current_longitude := 4,
    weight_time := 0, weight_distance := 0 }

/-- A provider that always succeeds with distance 100 m / duration 200 s. -/
def witProviderOK : Provider :=
  fun _ _ => some { distance := FVal.fin 100, duration := FVal.fin 200 }

/-- A provider for which every call fails. -/
def witProviderFail : Provider := fun _ _ => none

/-- A solver returning the nodes in index order (a valid Hamiltonian chain
from depot 0 to depot `n - 1`). -/
def witSolver : Solver := fun _ n _ _ => some (List.range n)

/-- A solver that finds no solution. -/
def witSolverNone : Solver := fun _ _ _ _ => none

/-- A predictor that always predicts a negative duration. -/
def witModelNeg : Model := fun _ => Except.ok (FVal.fin (-5))

/-- A predictor that always predicts NaN. -/
def witModelNan : Model := fun _ => Except.ok FVal.nan

/-- A predictor that always predicts 50 seconds. -/
def witModel50 : Model := fun _ => Except.ok (FVal.fin 50)

/-- A predictor that always raises. -/
def witModelErr : Model := fun _ => Except.error ()

/-! ### Claim C5 -/

/-- C5: for every ordered pair collected into the estimate cache, the
stored distance and duration are finite and nonnegative (never NaN,
infinite, or negative), and the sanitizer replaces any infinite, NaN, or
negative raw value by the fixed sentinel `1 000 000 000` before it is
stored. -/
theorem C5_cache_never_bad (model : Option Model) (provider : Provider)
    (hour day : ℕ) (pts : List Point) (k : CacheKey) (v : PairEstimate)
    (h : cacheLookup (pass1 model provider hour day pts).cache k = some v) :
    ((∃ q : ℚ, v.distance = FVal.fin q ∧ 0 ≤ q) ∧
      (∃ q : ℚ, v.duration = FVal.fin q ∧ 0 ≤ q)) ∧
    (∀ w : FVal,
      (w = FVal.inf ∨ w.isnan = true ∨ FVal.flt w (FVal.fin 0) = true) →
      sanitize w = FVal.fin 1000000000) := by
  obtain ⟨k2, hk2⟩ := cacheLookup_mem h
  obtain ⟨hcache, -, -⟩ := pass1_inv model provider hour day pts
  obtain ⟨h1, h2, -, -⟩ := hcache _ hk2
  exact ⟨⟨h1, h2⟩, fun w hw => sanitize_bad hw⟩

/-- Witness for C5 at a concrete collected cache. -/
theorem C5_cache_never_bad_witness :
    (cacheLookup (pass1 none witProviderOK 10 2 (allPoints witCfg witReq1)).cache
        (cacheKey ((allPoints witCfg witReq1).getD 0 default)
          ((allPoints witCfg witReq1).getD 1 default)) =
      some { distance := FVal.fin 100, duration := FVal.fin 200 }) ∧
    (((∃ q : ℚ, ({ distance := FVal.fin 100, duration := FVal.fin 200 } :
          PairEstimate).distance = FVal.fin q ∧ 0 ≤ q) ∧
       (∃ q : ℚ, ({ distance := FVal.fin 100, duration := FVal.fin 200 } :
          PairEstimate).duration = FVal.fin q ∧ 0 ≤ q)) ∧
      (∀ w : FVal,
        (w = FVal.inf ∨ w.isnan = true ∨ FVal.flt w (FVal.fin 0) = true) →
        sanitize w = FVal.fin 1000000000)) :=
  ⟨by decide,
   C5_cache_never_bad none witProviderOK 10 2 (allPoints witCfg witReq1)
     (cacheKey ((allPoints witCfg witReq1).getD 0 default)
       ((allPoints witCfg witReq1).getD 1 default))
     { distance := FVal.fin 100, duration := FVal.fin 200 } (by decide)⟩

/-! ### Claim C6 -/

/-- C6: every cost matrix the endpoint builds has all diagonal entries
equal to 0, every finite entry lies in `[0, 1]`, and the effective
(normalized) weights sum to 1. -/
theorem C6_cost_matrix_invariants (cfg : Config) (model : Option Model)
    (provider : Provider) (hour day : ℕ) (request : OptimizeRouteRequest)
    (hwt : 0 ≤ request.weight_time) (hwd : 0 ≤ request.weight_distance)
    (hw : request.weight_time + request.weight_distance ≠ 0) :
    (∀ i, i < (allPoints cfg request).length →
      mEntry (endpointCostMatrix cfg model provider hour day request) i i =
        FVal.fin 0) ∧
    (∀ i j : ℕ, i < (allPoints cfg request).length →
      j < (allPoints cfg request).length →
      ∀ q : ℚ,
        mEntry (endpointCostMatrix cfg model provider hour day request) i j =
          FVal.fin q →
        0 ≤ q ∧ q ≤ 1) ∧
    request.weight_time / (request.weight_time + request.weight_distance) +
        request.weight_distance / (request.weight_time + request.weight_distance) =
      1 := by
  refine ⟨?_, ?_, by field_simp⟩
  · intro i hi
    unfold endpointCostMatrix
    rw [mEntry_buildCostMatrix _ _ _ _ (by simpa using hi) (by simpa using hi),
      if_pos rfl]
  · intro i j hi hj q hq
    exact endpointCostMatrix_entry_bounds cfg model provider hour day request
      hwt hwd hw hi hj hq

/-- Witness for C6 at a concrete request. -/
theorem C6_cost_matrix_invariants_witness :
    ((0 : ℚ) ≤ witReq1.weight_time ∧ (0 : ℚ) ≤ witReq1.weight_distance ∧
      witReq1.weight_time + witReq1.weight_distance ≠ 0) ∧
    ((∀ i, i < (allPoints witCfg witReq1).length →
      mEntry (endpointCostMatrix witCfg none witProviderOK 10 2 witReq1) i i =
        FVal.fin 0) ∧
    (∀ i j : ℕ, i < (allPoints witCfg witReq1).length →
      j < (allPoints witCfg witReq1).length →
      ∀ q : ℚ,
        mEntry (endpointCostMatrix witCfg none witProviderOK 10 2 witReq1) i j =
          FVal.fin q →
        0 ≤ q ∧ q ≤ 1) ∧
    witReq1.weight_time / (witReq1.weight_time + witReq1.weight_distance) +
        witReq1.weight_distance / (witReq1.weight_time + witReq1.weight_distance) =
      1) :=
  ⟨⟨by norm_num [witReq1], by norm_num [witReq1], by norm_num [witReq1]⟩,
   C6_cost_matrix_invariants witCfg none witProviderOK 10 2 witReq1
     (by norm_num [witReq1]) (by norm_num [witReq1]) (by norm_num [witReq1])⟩

/-! ### Claim C7 -/

/-- C7: a request whose two weights sum to zero is rejected with
HTTP 400 before any provider or predictor call is made and without
invoking the solver; otherwise each weight divided by the weight sum gives
effective weights summing to 1. -/
theorem C7_zero_weight_rejection (cfg : Config) (model : Option Model)
    (provider : Provider) (solver : Solver) (hour day : ℕ)
    (request : OptimizeRouteRequest) :
    (request.weight_time + request.weight_distance = 0 →
      (optimize_delivery_route cfg model provider solver hour day request).result =
          Except.error 400 ∧
        (optimize_delivery_route cfg model provider solver hour day request).providerCalls = 0 ∧
        (optimize_delivery_route cfg model provider solver hour day request).predictorCalls = 0 ∧
        (optimize_delivery_route cfg model provider solver hour day request).solverInvoked = false) ∧
    (request.weight_time + request.weight_distance ≠ 0 →
      request.weight_time / (request.weight_time + request.weight_distance) +
          request.weight_distance / (request.weight_time + request.weight_distance) =
        1) := by
  constructor
  · intro h
    rw [optimize_zero_weights cfg model provider solver hour day request h]
    exact ⟨rfl, rfl, rfl, rfl⟩
  · intro h
    field_simp

/-- Witness for C7 at a concrete zero-weight request. -/
theorem C7_zero_weight_rejection_witness :
    (witReqW0.weight_time + witReqW0.weight_distance = 0) ∧
    ((optimize_delivery_route witCfg none witProviderOK witSolver 10 2 witReqW0).result =
        Except.error 400 ∧
      (optimize_delivery_route witCfg none witProviderOK witSolver 10 2 witReqW0).providerCalls = 0 ∧
      (optimize_delivery_route witCfg none witProviderOK witSolver 10 2 witReqW0).predictorCalls = 0 ∧
      (optimize_delivery_route witCfg none witProviderOK witSolver 10 2 witReqW0).solverInvoked = false) :=
  ⟨by norm_num [witReqW0],
   (C7_zero_weight_rejection witCfg none witProviderOK witSolver 10 2 witReqW0).1
     (by norm_num [witReqW0])⟩

/-! ### Claim C8 -/

/-- C8: the `total_cost` the solver adapter returns is the sum of the
original unscaled cost-matrix entries over the consecutive pairs of the
returned `route_indices` (not the solver's scaled integer objective). -/
theorem C8_total_cost_is_unscaled_path_sum (solver : Solver)
    (cost_matrix : List (List FVal)) (num_nodes s e : ℕ) (res : SolveResult)
    (h : solve_tsp_with_ortools solver cost_matrix num_nodes s e = some res) :
    res.total_cost = pathCostSum cost_matrix res.route_indices := by
  unfold solve_tsp_with_ortools at h
  cases hs : solver (solverInput cost_matrix) num_nodes s e with
  | none => rw [hs] at h; exact absurd h (by simp)
  | some chain =>
      rw [hs] at h
      simp only [Option.some.injEq] at h
      rw [← h]
      exact decodeTotal_eq_pathCostSum cost_matrix chain

/-- Witness for C8 on a concrete solved instance. -/
theorem C8_total_cost_is_unscaled_path_sum_witness :
    (solve_tsp_with_ortools witSolver
        (endpointCostMatrix witCfg none witProviderOK 10 2 witReq1) 3 0 2 =
      some { route_indices := [0, 1, 2], total_cost := FVal.fin 2 }) ∧
    ({ route_indices := [0, 1, 2], total_cost := FVal.fin 2 } : SolveResult).total_cost =
      pathCostSum (endpointCostMatrix witCfg none witProviderOK 10 2 witReq1)
        ({ route_indices := [0, 1, 2], total_cost := FVal.fin 2 } : SolveResult).route_indices :=
  ⟨by with_unfolding_all rfl,
   C8_total_cost_is_unscaled_path_sum witSolver
     (endpointCostMatrix witCfg none witProviderOK 10 2 witReq1) 3 0 2 _
     (by with_unfolding_all rfl)⟩

/-! ### Claim C9 -/

theorem getD_map {α β : Type} (f : α → β) (l : List α) {i : ℕ}
    (hi : i < l.length) (d : β) (d2 : α) :
    (l.map f).getD i d = f (l.getD i d2) := by
  rw [List.getD_eq_getElem?_getD, List.getD_eq_getElem?_getD, List.getElem?_map,
    List.getElem?_eq_getElem hi]
  rfl

theorem endpointCostMatrix_length (cfg : Config) (model : Option Model)
    (provider : Provider) (hour day : ℕ) (request : OptimizeRouteRequest) :
    (endpointCostMatrix cfg model provider hour day request).length =
      (allPoints cfg request).length := by
  unfold endpointCostMatrix buildCostMatrix
  simp

theorem endpointCostMatrix_row_length (cfg : Config) (model : Option Model)
    (provider : Provider) (hour day : ℕ) (request : OptimizeRouteRequest)
    {i : ℕ} (hi : i < (allPoints cfg request).length) :
    ((endpointCostMatrix cfg model provider hour day request).getD i []).length =
      (allPoints cfg request).length := by
  unfold endpointCostMatrix buildCostMatrix
  dsimp only
  rw [getD_map_range _ _ hi]
  simp

theorem mEntryZ_scaledCostMatrix (cm : List (List FVal)) {i j : ℕ}
    (hi : i < cm.length) (hj : j < (cm.getD i []).length) :
    mEntryZ (scaledCostMatrix cm) i j = scaleCost (mEntry cm i j) := by
  unfold mEntryZ scaledCostMatrix mEntry
  rw [getD_map (fun row => row.map scaleCost) cm hi ([] : List ℤ) ([] : List FVal)]
  exact getD_map scaleCost _ hj 0 (FVal.fin 0)

/-- C9: after pass 1 the estimate cache has an entry for every ordered pair
of distinct indices, the cost matrix handed to the solver is entirely
finite (the missing-data branch is unreachable), and every scaled cost is
an integer in `[0, 10^9]`. -/
theorem C9_cache_complete_scaled_in_range (cfg : Config) (model : Option Model)
    (provider : Provider) (hour day : ℕ) (request : OptimizeRouteRequest)
    (hwt : 0 ≤ request.weight_time) (hwd : 0 ≤ request.weight_distance)
    (hw : request.weight_time + request.weight_distance ≠ 0)
    {i j : ℕ} (hi : i < (allPoints cfg request).length)
    (hj : j < (allPoints cfg request).length) :
    (i ≠ j →
      (cacheLookup (pass1 model provider hour day (allPoints cfg request)).cache
        (cacheKey ((allPoints cfg request).getD i default)
          ((allPoints cfg request).getD j default))).isSome) ∧
    (∃ q : ℚ,
      mEntry (endpointCostMatrix cfg model provider hour day request) i j =
        FVal.fin q) ∧
    (0 ≤ mEntryZ (scaledCostMatrix
          (endpointCostMatrix cfg model provider hour day request)) i j ∧
      mEntryZ (scaledCostMatrix
          (endpointCostMatrix cfg model provider hour day request)) i j ≤
        1000000000) := by
  obtain ⟨q, hq⟩ :=
    endpointCostMatrix_entry_fin cfg model provider hour day request hi hj
  obtain ⟨hq0, hq1⟩ :=
    endpointCostMatrix_entry_bounds cfg model provider hour day request
      hwt hwd hw hi hj hq
  have hz : mEntryZ (scaledCostMatrix
      (endpointCostMatrix cfg model provider hour day request)) i j =
      scaleCost (mEntry (endpointCostMatrix cfg model provider hour day request) i j) :=
    mEntryZ_scaledCostMatrix _
      (by rw [endpointCostMatrix_length]; exact hi)
      (by rw [endpointCostMatrix_row_length cfg model provider hour day request hi];
          exact hj)
  obtain ⟨hs0, hs1⟩ := scaleCost_unit hq0 hq1
  refine ⟨fun hne => pass1_complete model provider hour day _ hi hj hne,
    ⟨q, hq⟩, ?_, ?_⟩
  · rw [hz, hq]
    exact hs0
  · rw [hz, hq]
    calc scaleCost (FVal.fin q) ≤ 1000 := hs1
      _ ≤ 1000000000 := by norm_num

/-- Witness for C9 at a concrete request (indices 0 and 1). -/
theorem C9_cache_complete_scaled_in_range_witness :
    ((0 : ℚ) ≤ witReq1.weight_time ∧ (0 : ℚ) ≤ witReq1.weight_distance ∧
      witReq1.weight_time + witReq1.weight_distance ≠ 0 ∧
      0 < (allPoints witCfg witReq1).length ∧ 1 < (allPoints witCfg witReq1).length) ∧
    (((0 : ℕ) ≠ 1 →
      (cacheLookup (pass1 none witProviderOK 10 2 (allPoints witCfg witReq1)).cache
        (cacheKey ((allPoints witCfg witReq1).getD 0 default)
          ((allPoints witCfg witReq1).getD 1 default))).isSome) ∧
    (∃ q : ℚ,
      mEntry (endpointCostMatrix witCfg none witProviderOK 10 2 witReq1) 0 1 =
        FVal.fin q) ∧
    (0 ≤ mEntryZ (scaledCostMatrix
          (endpointCostMatrix witCfg none witProviderOK 10 2 witReq1)) 0 1 ∧
      mEntryZ (scaledCostMatrix
          (endpointCostMatrix witCfg none witProviderOK 10 2 witReq1)) 0 1 ≤
        1000000000)) :=
  ⟨⟨by norm_num [witReq1], by norm_num [witReq1], by norm_num [witReq1],
    by norm_num [allPoints_length], by norm_num [allPoints_length, witReq1]⟩,
   C9_cache_complete_scaled_in_range witCfg none witProviderOK 10 2 witReq1
     (by norm_num [witReq1]) (by norm_num [witReq1]) (by norm_num [witReq1])
     (by norm_num [allPoints_length]) (by norm_num [allPoints_length, witReq1])⟩

/-! ### Claim C1 -/

theorem solve_tsp_some_chain {solver : Solver} {cm : List (List FVal)}
    {n s e : ℕ} {res : SolveResult}
    (h : solve_tsp_with_ortools solver cm n s e = some res) :
    solver (solverInput cm) n s e = some res.route_indices := by
  unfold solve_tsp_with_ortools at h
  cases hs : solver (solverInput cm) n s e with
  | none => rw [hs] at h; exact absurd h (by simp)
  | some chain => rw [hs] at h; simp only [Option.some.injEq] at h; rw [← h]

/-- C1: for every successful response (the point set always has size ≥ 2),
the returned route starts at the current-location point, ends at the
warehouse point, and is a permutation of the full point list — so every
order point appears exactly once (hypothesis: the external solver honours
its contract of returning a permutation of all nodes).  Moreover, whenever
the solver output fails the defensive endpoint check, the post-check
replaces it by the identity order `0, 1, …, n-1` (current location, orders
in input order, warehouse). -/
theorem C1_route_endpoints_and_coverage (cfg : Config) (model : Option Model)
    (provider : Provider) (solver : Solver) (hour day : ℕ)
    (request : OptimizeRouteRequest) (hsolver : SolverContract solver)
    (resp : OptimizedRouteResponse)
    (h : (optimize_delivery_route cfg model provider solver hour day request).result =
      Except.ok resp) :
    (resp.optimized_route.head? = some (toRoutePoint (currentPoint request)) ∧
      resp.optimized_route.getLast? = some (toRoutePoint (warehousePoint cfg request)) ∧
      resp.optimized_route.Perm ((allPoints cfg request).map toRoutePoint)) ∧
    (∀ chain : List ℕ,
      (chain = [] ∨ chain.head? ≠ some 0 ∨
        chain.getLast? ≠ some ((allPoints cfg request).length - 1)) →
      postCheck (allPoints cfg request).length 0
          ((allPoints cfg request).length - 1) chain =
        List.range (allPoints cfg request).length) := by
  have hlen2 : 2 ≤ (allPoints cfg request).length := by
    rw [allPoints_length]; omega
  refine ⟨?_, ?_⟩
  swap
  · intro chain hchain
    unfold postCheck
    rw [if_pos hchain]
    exact identity_eq_range hlen2
  by_cases hw : request.weight_time + request.weight_distance = 0
  · rw [optimize_zero_weights cfg model provider solver hour day request hw] at h
    exact absurd h (by simp)
  rw [optimize_eq_phase cfg model provider solver hour day request hw] at h
  unfold runSolverPhase at h
  dsimp only at h
  cases hs : solve_tsp_with_ortools solver
      (endpointCostMatrix cfg model provider hour day request)
      (allPoints cfg request).length 0 ((allPoints cfg request).length - 1) with
  | none => rw [hs] at h; exact absurd h (by simp)
  | some res =>
      rw [hs] at h
      dsimp only at h
      simp only [Except.ok.injEq] at h
      subst h
      dsimp only
      have hperm0 : res.route_indices.Perm
          (List.range (allPoints cfg request).length) :=
        hsolver _ _ _ _ _ (solve_tsp_some_chain hs)
      obtain ⟨hperm, hhead, hlast⟩ := postCheck_spec hlen2 _ hperm0
      have hmem : ∀ idx ∈ postCheck (allPoints cfg request).length 0
          ((allPoints cfg request).length - 1) res.route_indices,
          idx < (allPoints cfg request).length := by
        intro idx hx
        exact List.mem_range.mp (hperm.mem_iff.mp hx)
      rw [buildRoutePoints_all_lt _ _ hmem]
      refine ⟨?_, ?_, ?_⟩
      · rw [List.head?_map, hhead]
        rfl
      · rw [List.getLast?_map, hlast]
        have hwh : (allPoints cfg request).getD
            ((allPoints cfg request).length - 1) default =
            warehousePoint cfg request := by
          have h1 : (allPoints cfg request).length - 1 =
              request.orders.length + 1 := by
            rw [allPoints_length]
            omega
          rw [h1]
          exact allPoints_getD_last cfg request
        rw [Option.map_some']
        rw [hwh]
      · have hmap := hperm.map
          (fun idx => toRoutePoint ((allPoints cfg request).getD idx default))
        have hmapeq : (List.range (allPoints cfg request).length).map
            (fun idx => toRoutePoint ((allPoints cfg request).getD idx default)) =
            (allPoints cfg request).map toRoutePoint := by
          rw [show (fun idx => toRoutePoint ((allPoints cfg request).getD idx default)) =
              (toRoutePoint ∘ fun idx => (allPoints cfg request).getD idx default)
            from rfl, ← List.map_map, range_map_getD]
        rw [hmapeq] at hmap
        exact hmap

/-- Witness for C1 on a concrete run with a contract-honouring solver. -/
theorem C1_route_endpoints_and_coverage_witness :
    SolverContract witSolver ∧
    ((respOf (optimize_delivery_route witCfg none witProviderOK witSolver 10 2
        witReq1)).optimized_route.head? =
        some (toRoutePoint (currentPoint witReq1)) ∧
      (respOf (optimize_delivery_route witCfg none witProviderOK witSolver 10 2
        witReq1)).optimized_route.getLast? =
        some (toRoutePoint (warehousePoint witCfg witReq1)) ∧
      (respOf (optimize_delivery_route witCfg none witProviderOK witSolver 10 2
        witReq1)).optimized_route.Perm
        ((allPoints witCfg witReq1).map toRoutePoint)) :=
  have hcontract : SolverContract witSolver := by
    intro m n s e chain hchain
    unfold witSolver at hchain
    simp only [Option.some.injEq] at hchain
    rw [← hchain]
  ⟨hcontract,
   (C1_route_endpoints_and_coverage witCfg none witProviderOK witSolver 10 2
     witReq1 hcontract
     (respOf (optimize_delivery_route witCfg none witProviderOK witSolver 10 2 witReq1))
     (by with_unfolding_all rfl)).1⟩

/-! ### Claim C2 -/

/-- C2 (code bug): the direct-route shortcut guard is `num_points <= 1`,
but the point list always holds the current location and the warehouse, so
a zero-orders request has `num_points = 2` and does not take the shortcut:
the provider is called (two ordered pairs plus the full-route geometry
call), the solver is invoked, and the totals are the cached current→
warehouse estimates (200 s / 100 m here) — not zero. -/
theorem C2_zero_orders_no_shortcut :
    (optimize_delivery_route witCfg none witProviderOK witSolver 10 2 witReq0).result =
      Except.ok (respOf
        (optimize_delivery_route witCfg none witProviderOK witSolver 10 2 witReq0)) ∧
    (optimize_delivery_route witCfg none witProviderOK witSolver 10 2
      witReq0).solverInvoked = true ∧
    (optimize_delivery_route witCfg none witProviderOK witSolver 10 2
      witReq0).providerCalls = 3 ∧
    (respOf (optimize_delivery_route witCfg none witProviderOK witSolver 10 2
      witReq0)).total_predicted_time_seconds = FVal.fin 200 ∧
    (respOf (optimize_delivery_route witCfg none witProviderOK witSolver 10 2
      witReq0)).total_distance_meters = FVal.fin 100 ∧
    FVal.fin 200 ≠ FVal.fin 0 :=
  ⟨by with_unfolding_all rfl, by with_unfolding_all rfl, by with_unfolding_all rfl,
   by with_unfolding_all rfl, by with_unfolding_all rfl, by decide⟩

/-! ### Claim C3 -/

/-- C3 (amended): provider failures never make a pair unreachable — the
sanitizer turns every failed estimate into the finite sentinel, so every
entry of the cost matrix handed to the solver is finite; and when the
solver itself reports no solution, the endpoint surfaces the explicit
optimization failure HTTP 500 rather than any route. -/
theorem C3_solver_failure_is_explicit (cfg : Config) (model : Option Model)
    (provider : Provider) (solver : Solver) (hour day : ℕ)
    (request : OptimizeRouteRequest)
    (hw : request.weight_time + request.weight_distance ≠ 0) :
    (∀ i j : ℕ, i < (allPoints cfg request).length →
      j < (allPoints cfg request).length →
      mEntry (endpointCostMatrix cfg model provider hour day request) i j ≠
        FVal.inf) ∧
    (solver (solverInput (endpointCostMatrix cfg model provider hour day request))
        (allPoints cfg request).length 0 ((allPoints cfg request).length - 1) =
          none →
      (optimize_delivery_route cfg model provider solver hour day request).result =
        Except.error 500) := by
  constructor
  · intro i j hi hj
    obtain ⟨q, hq⟩ :=
      endpointCostMatrix_entry_fin cfg model provider hour day request hi hj
    rw [hq]
    exact fun hc => FVal.noConfusion hc
  · intro hnone
    rw [optimize_eq_phase cfg model provider solver hour day request hw]
    have hsolve : solve_tsp_with_ortools solver
        (endpointCostMatrix cfg model provider hour day request)
        (allPoints cfg request).length 0 ((allPoints cfg request).length - 1) =
        none := by
      unfold solve_tsp_with_ortools
      rw [hnone]
    unfold runSolverPhase
    dsimp only
    rw [hsolve]

/-- Witness for the amended C3: a solver reporting no solution yields the
explicit HTTP 500, and the matrix is entirely finite. -/
theorem C3_solver_failure_is_explicit_witness :
    (witReq1.weight_time + witReq1.weight_distance ≠ 0 ∧
      witSolverNone
        (solverInput (endpointCostMatrix witCfg none witProviderFail 10 2 witReq1))
        (allPoints witCfg witReq1).length 0
        ((allPoints witCfg witReq1).length - 1) = none) ∧
    ((∀ i j : ℕ, i < (allPoints witCfg witReq1).length →
      j < (allPoints witCfg witReq1).length →
      mEntry (endpointCostMatrix witCfg none witProviderFail 10 2 witReq1) i j ≠
        FVal.inf) ∧
    (witSolverNone
        (solverInput (endpointCostMatrix witCfg none witProviderFail 10 2 witReq1))
        (allPoints witCfg witReq1).length 0
        ((allPoints witCfg witReq1).length - 1) = none →
      (optimize_delivery_route witCfg none witProviderFail witSolverNone 10 2
        witReq1).result = Except.error 500)) :=
  ⟨⟨by norm_num [witReq1], rfl⟩,
   C3_solver_failure_is_explicit witCfg none witProviderFail witSolverNone 10 2
     witReq1 (by norm_num [witReq1])⟩

/-- C3 counterexample: all provider calls fail, yet the cost matrix handed
to the solver is entirely finite (every failed edge carries the combined
sentinel cost 1, not `inf`), the solver finds a route, and the endpoint
returns a successful 3-point route — not an optimization-failure result. -/
theorem C3_counterexample :
    endpointCostMatrix witCfg none witProviderFail 10 2 witReq1 =
      [[FVal.fin 0, FVal.fin 1, FVal.fin 1],
       [FVal.fin 1, FVal.fin 0, FVal.fin 1],
       [FVal.fin 1, FVal.fin 1, FVal.fin 0]] ∧
    (optimize_delivery_route witCfg none witProviderFail witSolver 10 2
      witReq1).result =
      Except.ok (respOf (optimize_delivery_route witCfg none witProviderFail
        witSolver 10 2 witReq1)) ∧
    (respOf (optimize_delivery_route witCfg none witProviderFail witSolver 10 2
      witReq1)).optimized_route.length = 3 :=
  ⟨by with_unfolding_all rfl, by with_unfolding_all rfl, by with_unfolding_all rfl⟩

/-! ### Claim C4 -/

/-- C4 (amended): when the predictor returns a negative or NaN value and
the provider duration is finite and nonnegative, the resolved duration is
`max(0.0, min(prediction, provider_duration))`, i.e. `0.0` — not the
provider duration; the provider-duration fallback fires only when the
predictor raises; in every case the resolved duration is finite and
nonnegative (never negative or NaN). -/
theorem C4_neg_nan_prediction_resolves_to_zero (m : Model) (provider : Provider)
    (hour day : ℕ) (src dst : Point) (d dur p : FVal) (dq : ℚ)
    (hprov : provider (src.longitude, src.latitude) (dst.longitude, dst.latitude) =
      some { distance := d, duration := dur })
    (hp : m (pairFeatures hour day src dst d) = Except.ok p)
    (hbad : p = FVal.nan ∨ ∃ pv : ℚ, p = FVal.fin pv ∧ pv < 0)
    (hdur : dur = FVal.fin dq) (hdq : 0 ≤ dq) :
    (collectPair (some m) provider hour day src dst).duration = FVal.fin 0 ∧
    (∀ m2 : Model, m2 (pairFeatures hour day src dst d) = Except.error () →
      (collectPair (some m2) provider hour day src dst).duration = sanitize dur) ∧
    Sane (collectPair (some m) provider hour day src dst).duration := by
  have hmain : (collectPair (some m) provider hour day src dst).duration =
      FVal.fin 0 := by
    unfold collectPair
    rw [hprov]
    dsimp only
    rw [hp]
    dsimp only
    subst hdur
    rcases hbad with rfl | ⟨pv, rfl, hpv⟩
    · rw [show FVal.pyMin FVal.nan (FVal.fin dq) = FVal.nan from rfl]
      decide
    · have hflt1 : FVal.flt (FVal.fin dq) (FVal.fin pv) = false := by
        simp only [FVal.flt, decide_eq_false_iff_not]
        exact not_lt.mpr ((hpv.le).trans hdq)
      have h1 : FVal.pyMin (FVal.fin pv) (FVal.fin dq) = FVal.fin pv := by
        unfold FVal.pyMin
        rw [hflt1]
        rfl
      rw [h1]
      have hflt2 : FVal.flt (FVal.fin 0) (FVal.fin pv) = false := by
        simp only [FVal.flt, decide_eq_false_iff_not]
        exact not_lt.mpr hpv.le
      have h2 : FVal.pyMax (FVal.fin 0) (FVal.fin pv) = FVal.fin 0 := by
        unfold FVal.pyMax
        rw [hflt2]
        rfl
      rw [h2]
      decide
  refine ⟨hmain, ?_, ⟨0, hmain, le_refl 0⟩⟩
  intro m2 herr
  unfold collectPair
  rw [hprov]
  dsimp only
  rw [herr]

/-- Witness for the amended C4 at a concrete negative prediction. -/
theorem C4_neg_nan_prediction_resolves_to_zero_witness :
    (witProviderOK ((currentPoint witReq1).longitude, (currentPoint witReq1).latitude)
        ((warehousePoint witCfg witReq1).longitude,
          (warehousePoint witCfg witReq1).latitude) =
        some { distance := FVal.fin 100, duration := FVal.fin 200 } ∧
      witModelNeg (pairFeatures 10 2 (currentPoint witReq1)
        (warehousePoint witCfg witReq1) (FVal.fin 100)) =
        Except.ok (FVal.fin (-5)) ∧
      ((FVal.fin (-5) : FVal) = FVal.nan ∨
        ∃ pv : ℚ, (FVal.fin (-5) : FVal) = FVal.fin pv ∧ pv < 0) ∧
      (FVal.fin 200 : FVal) = FVal.fin 200 ∧ (0 : ℚ) ≤ 200) ∧
    ((collectPair (some witModelNeg) witProviderOK 10 2 (currentPoint witReq1)
        (warehousePoint witCfg witReq1)).duration = FVal.fin 0 ∧
      (∀ m2 : Model, m2 (pairFeatures 10 2 (currentPoint witReq1)
          (warehousePoint witCfg witReq1) (FVal.fin 100)) = Except.error () →
        (collectPair (some m2) witProviderOK 10 2 (currentPoint witReq1)
          (warehousePoint witCfg witReq1)).duration = sanitize (FVal.fin 200)) ∧
      Sane (collectPair (some witModelNeg) witProviderOK 10 2 (currentPoint witReq1)
        (warehousePoint witCfg witReq1)).duration) :=
  ⟨⟨rfl, rfl, Or.inr ⟨-5, rfl, by norm_num⟩, rfl, by norm_num⟩,
   C4_neg_nan_prediction_resolves_to_zero witModelNeg witProviderOK 10 2
     (currentPoint witReq1) (warehousePoint witCfg witReq1)
     (FVal.fin 100) (FVal.fin 200) (FVal.fin (-5)) 200
     rfl rfl (Or.inr ⟨-5, rfl, by norm_num⟩) rfl (by norm_num)⟩

/-- C4 counterexample: the predictor returns −5 (respectively NaN) while
the provider reports a 200 s duration; the resolved duration for the pair
is 0, not the provider's 200 — the claim's "falls back to the provider
duration" is false for negative/NaN predictions (that fallback fires only
on predictor errors). -/
theorem C4_counterexample :
    (collectPair (some witModelNeg) witProviderOK 10 2 (currentPoint witReq1)
        (warehousePoint witCfg witReq1)).duration = FVal.fin 0 ∧
    (collectPair (some witModelNan) witProviderOK 10 2 (currentPoint witReq1)
        (warehousePoint witCfg witReq1)).duration = FVal.fin 0 ∧
    witProviderOK ((currentPoint witReq1).longitude, (currentPoint witReq1).latitude)
        ((warehousePoint witCfg witReq1).longitude,
          (warehousePoint witCfg witReq1).latitude) =
      some { distance := FVal.fin 100, duration := FVal.fin 200 } ∧
    FVal.fin 0 ≠ FVal.fin 200 := by decide

/-! ### Claim C10 -/

theorem pass1_good_pair (model : Option Model) (provider : Provider)
    (hour day : ℕ) (pts : List Point) {p : ℕ × ℕ}
    (h1 : p.1 < pts.length) (h2 : p.2 < pts.length) (hne : p.1 ≠ p.2) :
    GoodPair pts (pass1 model provider hour day pts).cache p := by
  obtain ⟨seg, hseg⟩ := Option.isSome_iff_exists.mp
    (pass1_complete model provider hour day pts h1 h2 hne)
  obtain ⟨k2, hk2⟩ := cacheLookup_mem hseg
  obtain ⟨hcache, -, -⟩ := pass1_inv model provider hour day pts
  obtain ⟨hs1, hs2, -, -⟩ := hcache _ hk2
  exact ⟨seg, hseg, hs1, hs2⟩

/-- C10 (amended): in every successful response (solver honouring its
permutation contract) the reported totals equal the sums of the per-segment
metrics — the infinite-metrics branch is unreachable and every segment
metric is finite and nonnegative; a pair whose provider call failed is
cached with the sentinel distance `10^9`, and also the sentinel duration
when no predictor is loaded (with a loaded predictor the duration may
instead be the clamped prediction). -/
theorem C10_totals_are_segment_sums (cfg : Config) (model : Option Model)
    (provider : Provider) (solver : Solver) (hour day : ℕ)
    (request : OptimizeRouteRequest) (hsolver : SolverContract solver)
    (resp : OptimizedRouteResponse)
    (h : (optimize_delivery_route cfg model provider solver hour day request).result =
      Except.ok resp) :
    (∃ segs : List RouteSegmentDetail,
      resp.segments_details = some segs ∧
      resp.total_predicted_time_seconds =
        sumF (segs.map (fun s => s.duration_seconds)) ∧
      resp.total_distance_meters =
        sumF (segs.map (fun s => s.distance_meters)) ∧
      ∀ s ∈ segs, Sane s.duration_seconds ∧ Sane s.distance_meters) ∧
    (∀ src dst : Point,
      provider (src.longitude, src.latitude) (dst.longitude, dst.latitude) = none →
      (collectPair model provider hour day src dst).distance = FVal.fin SENTINEL ∧
      (model = none →
        (collectPair model provider hour day src dst).duration =
          FVal.fin SENTINEL)) := by
  have hlen2 : 2 ≤ (allPoints cfg request).length := by
    rw [allPoints_length]; omega
  refine ⟨?_, ?_⟩
  swap
  · intro src dst hp
    refine ⟨collectPair_fail_distance model provider hour day src dst hp, ?_⟩
    intro hm
    subst hm
    exact collectPair_fail_duration_no_model provider hour day src dst hp
  by_cases hw : request.weight_time + request.weight_distance = 0
  · rw [optimize_zero_weights cfg model provider solver hour day request hw] at h
    exact absurd h (by simp)
  rw [optimize_eq_phase cfg model provider solver hour day request hw] at h
  unfold runSolverPhase at h
  dsimp only at h
  cases hs : solve_tsp_with_ortools solver
      (endpointCostMatrix cfg model provider hour day request)
      (allPoints cfg request).length 0 ((allPoints cfg request).length - 1) with
  | none => rw [hs] at h; exact absurd h (by simp)
  | some res =>
      rw [hs] at h
      dsimp only at h
      simp only [Except.ok.injEq] at h
      subst h
      dsimp only
      have hperm0 : res.route_indices.Perm
          (List.range (allPoints cfg request).length) :=
        hsolver _ _ _ _ _ (solve_tsp_some_chain hs)
      obtain ⟨hperm, -, -⟩ := postCheck_spec hlen2 _ hperm0
      have hnd : (postCheck (allPoints cfg request).length 0
          ((allPoints cfg request).length - 1) res.route_indices).Nodup :=
        hperm.symm.nodup (List.nodup_range _)
      have hgood : ∀ p ∈ (postCheck (allPoints cfg request).length 0
            ((allPoints cfg request).length - 1) res.route_indices).zip
          (postCheck (allPoints cfg request).length 0
            ((allPoints cfg request).length - 1) res.route_indices).tail,
          GoodPair (allPoints cfg request)
            (pass1 model provider hour day (allPoints cfg request)).cache p := by
        intro p hp
        obtain ⟨hm1, hm2⟩ := zip_tail_mem hp
        exact pass1_good_pair model provider hour day _
          (List.mem_range.mp (hperm.mem_iff.mp hm1))
          (List.mem_range.mp (hperm.mem_iff.mp hm2))
          (zip_tail_ne hnd p hp)
      obtain ⟨h1, h2, h3⟩ := buildSegments_spec (allPoints cfg request)
        (pass1 model provider hour day (allPoints cfg request)).cache
        (postCheck (allPoints cfg request).length 0
          ((allPoints cfg request).length - 1) res.route_indices) hgood
      exact ⟨_, rfl, h1, h2, h3⟩

/-- Witness for the amended C10 on a concrete successful run. -/
theorem C10_totals_are_segment_sums_witness :
    SolverContract witSolver ∧
    (∃ segs : List RouteSegmentDetail,
      (respOf (optimize_delivery_route witCfg none witProviderOK witSolver 10 2
        witReq1)).segments_details = some segs ∧
      (respOf (optimize_delivery_route witCfg none witProviderOK witSolver 10 2
        witReq1)).total_predicted_time_seconds =
        sumF (segs.map (fun s => s.duration_seconds)) ∧
      (respOf (optimize_delivery_route witCfg none witProviderOK witSolver 10 2
        witReq1)).total_distance_meters =
        sumF (segs.map (fun s => s.distance_meters)) ∧
      ∀ s ∈ segs, Sane s.duration_seconds ∧ Sane s.distance_meters) :=
  have hcontract : SolverContract witSolver := by
    intro m n s e chain hchain
    unfold witSolver at hchain
    simp only [Option.some.injEq] at hchain
    rw [← hchain]
  ⟨hcontract,
   (C10_totals_are_segment_sums witCfg none witProviderOK witSolver 10 2 witReq1
     hcontract
     (respOf (optimize_delivery_route witCfg none witProviderOK witSolver 10 2 witReq1))
     (by with_unfolding_all rfl)).1⟩

/-- C10 counterexample: with a loaded predictor returning 50 s and every
provider call failing, the two failed segments carry duration 50 s (the
clamped prediction), not the `10^9` sentinel, and contribute 50 s each to
the reported time total (100 s in all) — contradicting the claim that
failed segments contribute the sentinel to the reported totals. -/
theorem C10_counterexample :
    ((respOf (optimize_delivery_route witCfg (some witModel50) witProviderFail
        witSolver 10 2 witReq1)).segments_details.getD []).map
        (fun s => s.duration_seconds) = [FVal.fin 50, FVal.fin 50] ∧
    (respOf (optimize_delivery_route witCfg (some witModel50) witProviderFail
      witSolver 10 2 witReq1)).total_predicted_time_seconds = FVal.fin 100 ∧
    witProviderFail ((currentPoint witReq1).longitude, (currentPoint witReq1).latitude)
        (((allPoints witCfg witReq1).getD 1 default).longitude,
          ((allPoints witCfg witReq1).getD 1 default).latitude) = none ∧
    FVal.fin 50 ≠ FVal.fin 1000000000 :=
  ⟨by with_unfolding_all rfl, by with_unfolding_all rfl, rfl, by decide⟩

end GoFast
